import Mathlib

/-!
Shallow embedding of the knowledge-graph construction engine in
`src/graph/builder.py` (class `GraphBuilder`).

Python floats are modelled as exact rationals (`ℚ`); the JSON entity
record is modelled as a record of optional fields (a missing dictionary
key is `none`, and `dict.get(k, d)` is `Option.getD`); a Python
`KeyError` raised on `entity[k]` access is `Except.error "KeyError"`.
The NetworkX `DiGraph` is modelled as an insertion-ordered association
list of nodes plus a list of edges; Python dicts iterate in insertion
order, which the list order captures.
-/

namespace GraphRag

/-- An extracted entity record (one element of `data["entities"]`):
a JSON object whose fields may be absent. -/
structure Entity where
  text : Option String
  label : Option String
  confidence : Option ℚ
  deriving DecidableEq, Repr

/-- Node attributes, as set by `GraphBuilder.add_entity`. -/
structure NodeData where
  text : String
  label : String
  confidence : ℚ
  sources : List String
  count : ℕ
  deriving DecidableEq, Repr

/-- Edge attributes, as set by `GraphBuilder.add_relationship`. -/
structure EdgeData where
  type : String
  weight : ℚ
  count : ℕ
  deriving DecidableEq, Repr

/-- The builder's `nx.DiGraph`: insertion-ordered nodes (key ↦ data)
and edges (source key, target key, data). -/
structure Graph where
  nodes : List (String × NodeData)
  edges : List (String × String × EdgeData)
  deriving DecidableEq, Repr

/-- The fresh `nx.DiGraph()` made in `GraphBuilder.__init__`. -/
def emptyGraph : Graph := { nodes := [], edges := [] }

/-- `node_id = f"{entity['text']}_{entity['label']}"` (builder.py line 46). -/
def nodeKey (t lb : String) : String := t ++ "_" ++ lb

/-- `entity.get('confidence', 1.0)` (builder.py lines 53, 65, 118, 134). -/
def effectiveConfidence (e : Entity) : ℚ := e.confidence.getD 1

/-- `GraphBuilder.add_entity` (builder.py lines 38-66).  Accessing a
missing `text`/`label` key raises `KeyError`; otherwise a new node is
created with count 1, or the existing node is updated in place:
count incremented, source appended if new, confidence set to
`(old_conf * (count - 1) + new_conf) / count` with the incremented count. -/
def addEntity (g : Graph) (e : Entity) (docId : Option String) : Except String Graph :=
  match e.text, e.label with
  | some t, some lb =>
    let nid := nodeKey t lb
    match g.nodes.lookup nid with
    | none =>
        let srcs : List String := match docId with
          | some d => [d]
          | none => []
        Except.ok { g with nodes := g.nodes ++
          [(nid, { text := t, label := lb, confidence := effectiveConfidence e,
                   sources := srcs, count := 1 })] }
    | some nd =>
        let cnt := nd.count + 1
        let srcs := match docId with
          | some d => if d ∈ nd.sources then nd.sources else nd.sources ++ [d]
          | none => nd.sources
        let conf := (nd.confidence * (nd.count : ℚ) + effectiveConfidence e) / (cnt : ℚ)
        Except.ok { g with nodes := g.nodes.map (fun p =>
          if p.1 = nid then
            (nid, { text := nd.text, label := nd.label, confidence := conf,
                    sources := srcs, count := cnt })
          else p) }
  | _, _ => Except.error "KeyError"

/-- `[n for n in self.graph.nodes if self.graph.nodes[n]['text'] == text]`
(builder.py lines 79-80): matching node keys in insertion order. -/
def textMatches (g : Graph) (t : String) : List String :=
  (g.nodes.filter (fun p => decide (p.2.text = t))).map Prod.fst

/-- `self.graph.has_edge(source_id, target_id)` / edge-data access. -/
def findEdgeData (g : Graph) (sid tid : String) : Option EdgeData :=
  (g.edges.find? (fun e => decide (e.1 = sid ∧ e.2.1 = tid))).map (fun e => e.2.2)

/-- `GraphBuilder.add_relationship` (builder.py lines 68-98): resolve
both texts to the first matching node (insertion order); drop silently
when either side has no match; accumulate weight and count on an
existing edge, otherwise create a new edge with count 1. -/
def addRelationship (g : Graph) (source target relType : String) (weight : ℚ) : Graph :=
  match textMatches g source, textMatches g target with
  | sid :: _, tid :: _ =>
    match findEdgeData g sid tid with
    | some _ =>
        { g with edges := g.edges.map (fun e =>
            if e.1 = sid ∧ e.2.1 = tid then
              (e.1, e.2.1, { type := e.2.2.type, weight := e.2.2.weight + weight,
                             count := e.2.2.count + 1 })
            else e) }
    | none =>
        { g with edges := g.edges ++ [(sid, tid, { type := relType, weight := weight, count := 1 })] }
  | _, _ => g

/-- `entity.get('confidence', 1.0) >= self.min_confidence`
(builder.py lines 118 and 134). -/
def passesFilter (e : Entity) (minConf : ℚ) : Bool :=
  decide (minConf ≤ effectiveConfidence e)

/-- `[e['text'] for e in entities if e.get('confidence', 1.0) >= self.min_confidence]`
(builder.py line 134); accessing a missing `text` raises `KeyError`. -/
def cooccurTexts (entities : List Entity) (minConf : ℚ) : Except String (List String) :=
  match entities with
  | [] => Except.ok []
  | e :: es =>
    if passesFilter e minConf then
      match e.text with
      | none => Except.error "KeyError"
      | some t => (cooccurTexts es minConf).map (fun ts => t :: ts)
    else cooccurTexts es minConf

/-- Inner loop of `_add_cooccurrence_edges` (builder.py lines 137-139):
for one source, link to the next-4 window, skipping equal texts. -/
def addWindow (g : Graph) (source : String) (targets : List String) : Graph :=
  targets.foldl (fun acc t =>
    if source ≠ t then addRelationship acc source t "CO_OCCURS" (1/2) else acc) g

/-- Outer loop of `_add_cooccurrence_edges` (builder.py lines 136-139):
`entity_texts[i+1:i+5]` is the next 4 texts after position `i`. -/
def linkTexts : Graph → List String → Graph
  | g, [] => g
  | g, s :: rest => linkTexts (addWindow g s (rest.take 4)) rest

/-- `GraphBuilder._add_cooccurrence_edges` (builder.py lines 131-139). -/
def addCooccurrenceEdges (g : Graph) (entities : List Entity) (minConf : ℚ) :
    Except String Graph :=
  (cooccurTexts entities minConf).map (fun ts => linkTexts g ts)

/-- `G.degree(n)` on a NetworkX `DiGraph`: in-degree plus out-degree. -/
def nodeDegree (g : Graph) (nid : String) : ℕ :=
  (g.edges.filter (fun e => decide (e.2.1 = nid))).length +
    (g.edges.filter (fun e => decide (e.1 = nid))).length

/-- `nx.degree_centrality` value of one node: `degree / (N - 1)`;
NetworkX returns 1 for every node when `N ≤ 1`. -/
def degreeCentrality (g : Graph) (nid : String) : ℚ :=
  if g.nodes.length ≤ 1 then 1
  else (nodeDegree g nid : ℚ) / ((g.nodes.length : ℚ) - 1)

/-- `centrality.items()`: (node, centrality) pairs in node insertion order. -/
def centralityList (g : Graph) : List (String × ℚ) :=
  g.nodes.map (fun p => (p.1, degreeCentrality g p.1))

/-- One insertion step of a stable descending sort on the second
component: the new element goes before the first element whose
centrality is `≤` its own, so earlier elements win ties. -/
def insertRanked (a : String × ℚ) : List (String × ℚ) → List (String × ℚ)
  | [] => [a]
  | b :: bs => if b.2 ≤ a.2 then a :: b :: bs else b :: insertRanked a bs

/-- `sorted(items, key=lambda x: x[1], reverse=True)`: Python's sort is
stable, and `reverse=True` reverses comparisons only, so equal keys
keep their original relative order. -/
def sortByCentrality (l : List (String × ℚ)) : List (String × ℚ) :=
  l.foldr insertRanked []

/-- The ranking shared by `_prune_graph`, `_get_top_entities` and
`visualize` (builder.py lines 144-145, 230-231, 243-244). -/
def rankedNodes (g : Graph) : List (String × ℚ) :=
  sortByCentrality (centralityList g)

/-- `GraphBuilder._prune_graph` (builder.py lines 141-149): keep the
top `max_nodes` nodes of the ranking; `subgraph(...)` keeps exactly the
edges with both endpoints among the kept nodes, and iterates surviving
nodes in the original graph's insertion order. -/
def pruneGraph (g : Graph) (maxNodes : ℕ) : Graph :=
  let keep := ((rankedNodes g).take maxNodes).map Prod.fst
  { nodes := g.nodes.filter (fun p => decide (p.1 ∈ keep)),
    edges := g.edges.filter (fun e => decide (e.1 ∈ keep ∧ e.2.1 ∈ keep)) }

/-- The pruning step of `build_from_extractions` (builder.py lines 124-126):
prune only when `len(self.graph.nodes) > self.max_nodes`. -/
def maybePrune (g : Graph) (maxNodes : ℕ) : Graph :=
  if maxNodes < g.nodes.length then pruneGraph g maxNodes else g

/-- `self.graph.nodes[node]['text']`. -/
def nodeTextOf (g : Graph) (nid : String) : String :=
  ((g.nodes.lookup nid).map NodeData.text).getD ""

/-- `GraphBuilder._get_top_entities` (builder.py lines 228-232). -/
def topEntities (g : Graph) (n : ℕ) : List (String × ℚ) :=
  ((rankedNodes g).take n).map (fun p => (nodeTextOf g p.1, p.2))

/-- Per-document entity loop of `build_from_extractions`
(builder.py lines 117-119): each passing entity is added in turn; an
uncaught exception from `add_entity` aborts the loop. -/
def processEntities (g : Graph) (minConf : ℚ) (docId : String) :
    List Entity → Except String Graph
  | [] => Except.ok g
  | e :: es =>
    if passesFilter e minConf then
      match addEntity g e (some docId) with
      | Except.ok g2 => processEntities g2 minConf docId es
      | Except.error msg => Except.error msg
    else processEntities g minConf docId es

/-- A sequence of unconditional `add_entity` calls, in order; an
uncaught exception aborts the sequence. -/
def addSeq (g : Graph) (docId : Option String) : List Entity → Except String Graph
  | [] => Except.ok g
  | e :: es =>
    match addEntity g e docId with
    | Except.ok g2 => addSeq g2 docId es
    | Except.error msg => Except.error msg

/-- The graph holding the single node produced by repeated
`add_entity` calls for one key with no document id: key
`nodeKey t lb`, count `n`, confidence `q`. -/
def singleNodeGraph (t lb : String) (n : ℕ) (q : ℚ) : Graph :=
  { nodes := [(nodeKey t lb,
      { text := t, label := lb, confidence := q, sources := [], count := n })],
    edges := [] }

/-- `add_entity` calls for one `(text, label)` key with the given
confidences, starting from the empty graph (builder.py lines 46-66). -/
def addConfs (t lb : String) (cs : List ℚ) : Except String Graph :=
  addSeq emptyGraph none
    (cs.map (fun c => { text := some t, label := some lb, confidence := some c }))

/-- Node keys of a graph are pairwise distinct: every graph actually
built holds its nodes in a Python dict, whose keys are unique. -/
def keysNodup (g : Graph) : Prop := (g.nodes.map Prod.fst).Nodup

/-- No edge of the graph is a self-loop. -/
def noSelfLoops (g : Graph) : Prop := ∀ e ∈ g.edges, e.1 ≠ e.2.1

/-- A Python attribute value as it occurs on this graph's nodes and
edges: a scalar (number, string, boolean) or a list of strings. -/
inductive AttrValue where
  | num (q : ℚ)
  | str (s : String)
  | boolean (b : Bool)
  | strList (l : List String)
  deriving DecidableEq, Repr

/-- Python's `str(...)` of a list of strings, e.g.
`str(["doc1", "doc2"])`: brackets, comma-space separation, each
element in single quotes. -/
def pyStrOfList (l : List String) : String :=
  "[" ++ String.intercalate ", " (l.map (fun s => "\x27" ++ s ++ "\x27")) ++ "]"

/-- The per-value branch of `_prepare_graph_for_graphml`
(builder.py lines 180-186 and 192-198): lists become their `str(...)`
form, scalars pass through unchanged. -/
def cleanAttr : AttrValue → AttrValue
  | AttrValue.strList l => AttrValue.str (pyStrOfList l)
  | v => v

/-- A value GraphML can store: number, string, or boolean. -/
def isScalar : AttrValue → Bool
  | AttrValue.strList _ => false
  | _ => true

/-- The attribute dictionary of a node, as `add_entity` populates it. -/
def nodeAttrs (nd : NodeData) : List (String × AttrValue) :=
  [("text", AttrValue.str nd.text),
   ("label", AttrValue.str nd.label),
   ("confidence", AttrValue.num nd.confidence),
   ("sources", AttrValue.strList nd.sources),
   ("count", AttrValue.num (nd.count : ℚ))]

/-- The attribute dictionary of an edge, as `add_relationship`
populates it. -/
def edgeAttrs (ed : EdgeData) : List (String × AttrValue) :=
  [("type", AttrValue.str ed.type),
   ("weight", AttrValue.num ed.weight),
   ("count", AttrValue.num (ed.count : ℚ))]

/-- `cleaned_data`: every attribute value run through `cleanAttr`. -/
def cleanAttrList (attrs : List (String × AttrValue)) : List (String × AttrValue) :=
  attrs.map (fun kv => (kv.1, cleanAttr kv.2))

/-- `GraphBuilder._prepare_graph_for_graphml` (builder.py lines
173-201): the graph with every node and edge attribute cleaned. -/
def prepareForGraphml (g : Graph) :
    List (String × List (String × AttrValue)) ×
      List (String × String × List (String × AttrValue)) :=
  (g.nodes.map (fun p => (p.1, cleanAttrList (nodeAttrs p.2))),
   g.edges.map (fun e => (e.1, e.2.1, cleanAttrList (edgeAttrs e.2.2))))

/-! Concrete fixtures used by the closed theorems and witnesses. -/

/-- Six distinct above-threshold entities `[A, B, C, D, E, F]`, all
with label `ENT` and confidence `0.9`. -/
def windowEntities : List Entity :=
  [{ text := some "A", label := some "ENT", confidence := some (9/10) },
   { text := some "B", label := some "ENT", confidence := some (9/10) },
   { text := some "C", label := some "ENT", confidence := some (9/10) },
   { text := some "D", label := some "ENT", confidence := some (9/10) },
   { text := some "E", label := some "ENT", confidence := some (9/10) },
   { text := some "F", label := some "ENT", confidence := some (9/10) }]

/-- The node `add_entity` makes for one of the six window entities. -/
def windowNode (t : String) : NodeData :=
  { text := t, label := "ENT", confidence := 9/10, sources := ["doc1"], count := 1 }

/-- The graph holding the six window entities as nodes, no edges. -/
def windowGraph : Graph :=
  { nodes := [("A_ENT", windowNode "A"), ("B_ENT", windowNode "B"), ("C_ENT", windowNode "C"),
              ("D_ENT", windowNode "D"), ("E_ENT", windowNode "E"), ("F_ENT", windowNode "F")],
    edges := [] }

/-- A fresh co-occurrence edge: type `CO_OCCURS`, weight `0.5`, count 1. -/
def coEdge (s t : String) : String × String × EdgeData :=
  (s, t, { type := "CO_OCCURS", weight := 1/2, count := 1 })

/-- The fourteen edges the window-linking example is expected to make. -/
def windowEdges : List (String × String × EdgeData) :=
  [coEdge "A_ENT" "B_ENT", coEdge "A_ENT" "C_ENT", coEdge "A_ENT" "D_ENT", coEdge "A_ENT" "E_ENT",
   coEdge "B_ENT" "C_ENT", coEdge "B_ENT" "D_ENT", coEdge "B_ENT" "E_ENT", coEdge "B_ENT" "F_ENT",
   coEdge "C_ENT" "D_ENT", coEdge "C_ENT" "E_ENT", coEdge "C_ENT" "F_ENT",
   coEdge "D_ENT" "E_ENT", coEdge "D_ENT" "F_ENT",
   coEdge "E_ENT" "F_ENT"]

/-- A one-node graph: text `X`, label `L`. -/
def gX : Graph :=
  { nodes := [("X_L", { text := "X", label := "L", confidence := 1, sources := [], count := 1 })],
    edges := [] }

/-- A two-node graph with no edges: both nodes have equal degree
centrality, `A_L` was inserted before `B_L`. -/
def gTie : Graph :=
  { nodes := [("A_L", { text := "A", label := "L", confidence := 1, sources := [], count := 1 }),
              ("B_L", { text := "B", label := "L", confidence := 1, sources := [], count := 1 })],
    edges := [] }

/-- A three-node graph with one edge, used to exercise pruning with
budget 2: `A_L` and `B_L` are connected, `C_L` is isolated. -/
def gPr : Graph :=
  { nodes := [("A_L", { text := "A", label := "L", confidence := 1, sources := [], count := 1 }),
              ("B_L", { text := "B", label := "L", confidence := 1, sources := [], count := 1 }),
              ("C_L", { text := "C", label := "L", confidence := 1, sources := [], count := 1 })],
    edges := [("A_L", "B_L", { type := "RELATED_TO", weight := 1, count := 1 })] }

/-- A graph where the text `X` is shared by two nodes with different
labels (`X_L` inserted first), plus a `Y_M` node and one existing
`X_L → Y_M` edge. -/
def gAmb : Graph :=
  { nodes := [("X_L", { text := "X", label := "L", confidence := 1, sources := [], count := 1 }),
              ("X_M", { text := "X", label := "M", confidence := 1, sources := [], count := 1 }),
              ("Y_M", { text := "Y", label := "M", confidence := 1, sources := [], count := 1 })],
    edges := [("X_L", "Y_M", { type := "RELATED_TO", weight := 1, count := 1 })] }

/-- The one-node graph produced by accepting the out-of-range entity
`(text "a", label "L", confidence 1.5)` from document `doc`. -/
def gOutOfRange : Graph :=
  { nodes := [("a_L",
      { text := "a", label := "L", confidence := 3/2, sources := ["doc"], count := 1 })],
    edges := [] }

/-- The one-node graph produced by the colliding pair
`(text "a_b", label "c")` and `(text "a", label "b_c")`. -/
def gCollision : Graph :=
  { nodes := [("a_b_c",
      { text := "a_b", label := "c", confidence := 1, sources := [], count := 2 })],
    edges := [] }

/-- The node data of `gX`'s single node. -/
def ndX : NodeData := { text := "X", label := "L", confidence := 1, sources := [], count := 1 }

/-! Theorems. -/

/-- Every cleaned attribute value is a scalar. -/
theorem cleanAttr_scalar (v : AttrValue) : isScalar (cleanAttr v) = true := by
  cases v <;> rfl

/-- Cleaning an attribute value twice is the same as cleaning once. -/
theorem cleanAttr_idem (v : AttrValue) : cleanAttr (cleanAttr v) = cleanAttr v := by
  cases v <;> rfl

/-- Claim C3: on the ordered document entity list `[A, B, C, D, E, F]`
of six distinct above-threshold texts already present as nodes,
co-occurrence linking produces exactly the fourteen forward-window
edges `A→B, A→C, A→D, A→E, B→C, B→D, B→E, B→F, C→D, C→E, C→F, D→E,
D→F, E→F`, each with relation type `CO_OCCURS` and weight `0.5`, with
no self-loops and no edge spanning more than 4 positions ahead. -/
theorem c3_window_linking :
    addCooccurrenceEdges windowGraph windowEntities (3/10)
        = Except.ok ({ nodes := windowGraph.nodes, edges := windowEdges } : Graph)
      ∧ (∀ e ∈ windowEdges, e.1 ≠ e.2.1 ∧ e.2.2.type = "CO_OCCURS" ∧ e.2.2.weight = 1/2)
      ∧ (∀ e ∈ windowEdges,
          (windowGraph.nodes.map Prod.fst).indexOf e.2.1
            ≤ (windowGraph.nodes.map Prod.fst).indexOf e.1 + 4) := by
  have hc : (3:ℚ)/10 ≤ 9/10 := by norm_num
  refine ⟨?_, ?_, ?_⟩
  · simp [hc, addCooccurrenceEdges, cooccurTexts, passesFilter, effectiveConfidence,
      windowEntities, Except.map, linkTexts, addWindow, addRelationship, textMatches,
      findEdgeData, windowGraph, windowNode, windowEdges, coEdge]
  · intro e he
    fin_cases he <;>
      refine ⟨by decide, rfl, by norm_num [coEdge]⟩
  · intro e he
    fin_cases he <;> decide

/-- Claim C4, counterexample: an entity whose confidence `1.5` lies
outside `[0, 1]` is not rejected: `add_entity` stores it, confidence
and all, and the graph changes. -/
theorem c4_counterexample :
    addEntity emptyGraph
        { text := some "a", label := some "L", confidence := some (3/2) } (some "doc")
        = Except.ok gOutOfRange
      ∧ gOutOfRange ≠ emptyGraph := by
  constructor
  · simp [addEntity, emptyGraph, nodeKey, effectiveConfidence, List.lookup, gOutOfRange]
  · intro h
    simpa [emptyGraph, gOutOfRange] using congrArg Graph.nodes h

/-- Claim C5, counterexample: the entities `(text "a_b", label "c")`
and `(text "a", label "b_c")` have different `(text, label)` pairs,
yet both map to the joined key `a_b_c` and merge into a single node
(count 2) instead of being stored as two distinct nodes. -/
theorem c5_counterexample :
    addSeq emptyGraph none
        [{ text := some "a_b", label := some "c", confidence := some 1 },
         { text := some "a", label := some "b_c", confidence := some 1 }]
      = Except.ok gCollision := by
  simp [addSeq, addEntity, emptyGraph, nodeKey, effectiveConfidence, List.lookup, gCollision]

/-- Claim C4, amended: `add_entity` performs no validation at all.  An
entity with `text` and `label` present is accepted whatever its
confidence (no range check, no ValidationError); an entity missing
`text` or `label` raises an uncaught KeyError, and inside the
per-document loop of `build_from_extractions` that exception aborts
the whole loop instead of skipping just the one entity. -/
theorem c4_no_validation (g : Graph) (e : Entity) (d : Option String) :
    (∀ t lb, e.text = some t → e.label = some lb → ∃ g2, addEntity g e d = Except.ok g2)
      ∧ (e.text = none ∨ e.label = none → addEntity g e d = Except.error "KeyError")
      ∧ (∀ (m : ℚ) (doc : String) (es : List Entity), e.text = none →
          passesFilter e m = true →
            processEntities g m doc (e :: es) = Except.error "KeyError") := by
  refine ⟨?_, ?_, ?_⟩
  · intro t lb ht hl
    simp only [addEntity, ht, hl]
    cases g.nodes.lookup (nodeKey t lb) <;> exact ⟨_, rfl⟩
  · intro h
    rcases h with h | h
    · simp [addEntity, h]
    · cases ht : e.text <;> simp [addEntity, ht, h]
  · intro m doc es ht hpass
    simp [processEntities, hpass, addEntity, ht]

/-- Witness for `c4_no_validation`: an out-of-range confidence `5/2`
is accepted, a missing text raises KeyError, and the KeyError aborts
the rest of the document's entity list. -/
theorem c4_no_validation_witness :
    (∃ g2, addEntity emptyGraph
        { text := some "a", label := some "L", confidence := some (5/2) } none = Except.ok g2)
      ∧ addEntity emptyGraph
          { text := none, label := some "L", confidence := some 1 } none
          = Except.error "KeyError"
      ∧ processEntities emptyGraph 0 "doc"
          [{ text := none, label := some "L", confidence := some 1 },
           { text := some "a", label := some "L", confidence := some 1 }]
          = Except.error "KeyError" := by
  refine ⟨?_, ?_, ?_⟩
  · exact (c4_no_validation emptyGraph
      { text := some "a", label := some "L", confidence := some (5/2) } none).1 "a" "L" rfl rfl
  · exact (c4_no_validation emptyGraph
      { text := none, label := some "L", confidence := some 1 } none).2.1 (Or.inl rfl)
  · exact (c4_no_validation emptyGraph
      { text := none, label := some "L", confidence := some 1 } none).2.2 0 "doc"
      [{ text := some "a", label := some "L", confidence := some 1 }] rfl
      (by simp [passesFilter, effectiveConfidence])

/-- Claim C5, amended: node identity is the joined key
`text ++ "_" ++ label`, not the `(text, label)` pair.  Adding two
entities yields one merged node exactly when their joined keys
coincide and two distinct nodes otherwise; identical `(text, label)`
pairs always merge, but distinct pairs whose joined keys collide
(text containing the separator) also merge. -/
theorem c5_joined_key_identity (t1 l1 t2 l2 : String) (c1 c2 : ℚ) :
    (addSeq emptyGraph none
        [{ text := some t1, label := some l1, confidence := some c1 },
         { text := some t2, label := some l2, confidence := some c2 }]).toOption.map
        (fun g => g.nodes.length)
      = some (if nodeKey t1 l1 = nodeKey t2 l2 then 1 else 2) := by
  by_cases h : nodeKey t1 l1 = nodeKey t2 l2
  · simp [addSeq, addEntity, emptyGraph, List.lookup, h, Except.toOption]
  · have h2 : (nodeKey t2 l2 == nodeKey t1 l1) = false := beq_eq_false_iff_ne.mpr (Ne.symm h)
    simp [addSeq, addEntity, emptyGraph, List.lookup, h, h2, Except.toOption]

/-- Claim C9: the GraphML-prepared transform maps every node and edge
attribute to a scalar; scalars pass through unchanged; a list such as
`sources=["doc1","doc2"]` becomes its deterministic `str(...)` form
(so re-importing the flat form yields that string, not the list), and
the transform is idempotent on attribute values. -/
theorem c9_flat_interchange :
    (∀ v, isScalar (cleanAttr v) = true ∧ cleanAttr (cleanAttr v) = cleanAttr v)
      ∧ (∀ attrs, cleanAttrList (cleanAttrList attrs) = cleanAttrList attrs)
      ∧ (∀ g : Graph, (∀ p ∈ (prepareForGraphml g).1, ∀ kv ∈ p.2, isScalar kv.2 = true)
          ∧ (∀ t ∈ (prepareForGraphml g).2, ∀ kv ∈ t.2.2, isScalar kv.2 = true))
      ∧ cleanAttr (AttrValue.strList ["doc1", "doc2"])
          = AttrValue.str "[\x27doc1\x27, \x27doc2\x27]"
      ∧ cleanAttr (AttrValue.strList ["doc1", "doc2"]) ≠ AttrValue.strList ["doc1", "doc2"] := by
  refine ⟨fun v => ⟨cleanAttr_scalar v, cleanAttr_idem v⟩, ?_, ?_, by rfl, by simp [cleanAttr]⟩
  · intro attrs
    simp only [cleanAttrList, List.map_map]
    exact List.map_congr_left (fun kv _ => by simp [Function.comp, cleanAttr_idem])
  · intro g
    constructor
    · intro p hp kv hkv
      obtain ⟨q, hq, rfl⟩ := List.mem_map.mp hp
      obtain ⟨kv0, hkv0, rfl⟩ := List.mem_map.mp hkv
      exact cleanAttr_scalar kv0.2
    · intro t ht kv hkv
      obtain ⟨q, hq, rfl⟩ := List.mem_map.mp ht
      obtain ⟨kv0, hkv0, rfl⟩ := List.mem_map.mp hkv
      exact cleanAttr_scalar kv0.2

/-- Claim C10: a missing confidence field is treated as exactly 1.0:
the entity passes the `min_confidence` filter for any threshold
`m ≤ 1`, a newly created node stores confidence 1, and a merge folds
1 into the running mean. -/
theorem c10_default_confidence (g : Graph) (t lb doc : String) (m : ℚ) (hm : m ≤ 1) :
    passesFilter { text := some t, label := some lb, confidence := none } m = true
      ∧ (g.nodes.lookup (nodeKey t lb) = none →
          addEntity g { text := some t, label := some lb, confidence := none } (some doc)
            = Except.ok { g with nodes := g.nodes ++ [(nodeKey t lb,
                { text := t, label := lb, confidence := 1, sources := [doc], count := 1 })] })
      ∧ (∀ nd, g.nodes.lookup (nodeKey t lb) = some nd →
          addEntity g { text := some t, label := some lb, confidence := none } (some doc)
            = Except.ok { g with nodes := g.nodes.map (fun p =>
                if p.1 = nodeKey t lb then (nodeKey t lb,
                  { text := nd.text, label := nd.label,
                    confidence := (nd.confidence * (nd.count : ℚ) + 1) / ((nd.count : ℚ) + 1),
                    sources := if doc ∈ nd.sources then nd.sources else nd.sources ++ [doc],
                    count := nd.count + 1 }) else p) }) := by
  refine ⟨by simp [passesFilter, effectiveConfidence, hm], ?_, ?_⟩
  · intro h
    simp [addEntity, h, effectiveConfidence]
  · intro nd h
    simp [addEntity, h, effectiveConfidence]

/-- Witness for `c10_default_confidence` at threshold 0, a fresh node
on the empty graph, and a merge into `gX`. -/
theorem c10_default_confidence_witness :
    passesFilter { text := some "X", label := some "L", confidence := none } 0 = true
      ∧ addEntity emptyGraph { text := some "X", label := some "L", confidence := none } (some "d")
          = Except.ok { emptyGraph with nodes := emptyGraph.nodes ++ [(nodeKey "X" "L",
              { text := "X", label := "L", confidence := 1, sources := ["d"], count := 1 })] }
      ∧ addEntity gX { text := some "X", label := some "L", confidence := none } (some "d")
          = Except.ok { gX with nodes := gX.nodes.map (fun p =>
              if p.1 = nodeKey "X" "L" then (nodeKey "X" "L",
                { text := ndX.text, label := ndX.label,
                  confidence := (ndX.confidence * (ndX.count : ℚ) + 1) / ((ndX.count : ℚ) + 1),
                  sources := if "d" ∈ ndX.sources then ndX.sources else ndX.sources ++ ["d"],
                  count := ndX.count + 1 }) else p) } := by
  refine ⟨(c10_default_confidence emptyGraph "X" "L" "d" 0 zero_le_one).1,
          (c10_default_confidence emptyGraph "X" "L" "d" 0 zero_le_one).2.1 rfl,
          (c10_default_confidence gX "X" "L" "d" 0 zero_le_one).2.2 ndX rfl⟩

/-- Claim C7, counterexample: `add_relationship` does not reject an
edge whose resolved source and target coincide: with a node of text
`X` present, `add_relationship("X", "X")` creates the self-loop
`X_L → X_L`. -/
theorem c7_counterexample :
    (addRelationship gX "X" "X" "RELATED_TO" 1).edges
      = [("X_L", "X_L", { type := "RELATED_TO", weight := 1, count := 1 })] := by
  simp [addRelationship, gX, textMatches, findEdgeData]

/-- If a filter output starts with `a`, the input splits as a prefix
of non-matching elements, then `a`, then the rest. -/
theorem filter_head_split {α : Type} (p : α → Bool) (l : List α) (a : α) (rest : List α)
    (h : l.filter p = a :: rest) :
    ∃ pre post, l = pre ++ a :: post ∧ p a = true ∧ ∀ x ∈ pre, p x = false := by
  induction l with
  | nil => simp at h
  | cons b bs ih =>
    by_cases hb : p b = true
    · rw [List.filter_cons_of_pos hb] at h
      obtain ⟨rfl, _⟩ := List.cons_eq_cons.mp h
      exact ⟨[], bs, rfl, hb, by simp⟩
    · rw [List.filter_cons_of_neg (by simpa using hb)] at h
      obtain ⟨pre, post, rfl, hpa, hpre⟩ := ih h
      refine ⟨b :: pre, post, rfl, hpa, ?_⟩
      intro x hx
      rcases List.mem_cons.mp hx with rfl | hx
      · simpa using hb
      · exact hpre x hx

/-- `add_relationship` never touches the node set. -/
theorem addRelationship_nodes (g : Graph) (s t ty : String) (w : ℚ) :
    (addRelationship g s t ty w).nodes = g.nodes := by
  unfold addRelationship
  cases textMatches g s with
  | nil => rfl
  | cons a as =>
    cases textMatches g t with
    | nil => rfl
    | cons b bs => cases h3 : findEdgeData g a b <;> simp [h3]

/-- A key in `textMatches g t` belongs to a node whose stored text is
`t`. -/
theorem mem_of_textMatches (g : Graph) (t sid : String) (h : sid ∈ textMatches g t) :
    ∃ nd, (sid, nd) ∈ g.nodes ∧ nd.text = t := by
  unfold textMatches at h
  obtain ⟨p, hp, rfl⟩ := List.mem_map.mp h
  have hf := List.mem_filter.mp hp
  exact ⟨p.2, by simpa using hf.1, by simpa using hf.2⟩

/-- In an association list with distinct keys, a key determines its
value. -/
theorem assoc_inj {l : List (String × NodeData)} (h : (l.map Prod.fst).Nodup)
    {k : String} {a b : NodeData} (ha : (k, a) ∈ l) (hb : (k, b) ∈ l) : a = b := by
  induction l with
  | nil => simp at ha
  | cons p ps ih =>
    simp only [List.map_cons, List.nodup_cons] at h
    rcases List.mem_cons.mp ha with ha1 | ha1 <;> rcases List.mem_cons.mp hb with hb1 | hb1
    · exact (Prod.ext_iff.mp (ha1.trans hb1.symm)).2
    · exact absurd (List.mem_map.mpr ⟨(k, b), hb1, by rw [← ha1]⟩) h.1
    · exact absurd (List.mem_map.mpr ⟨(k, a), ha1, by rw [← hb1]⟩) h.1
    · exact ih h.2 ha1 hb1

/-- With distinct node keys, `add_relationship` on two different
texts cannot create a self-loop: the two resolved endpoints carry the
two different texts, so they are different nodes. -/
theorem addRelationship_noSelfLoops (g : Graph) (s t ty : String) (w : ℚ)
    (hk : keysNodup g) (hs : noSelfLoops g) (hne : s ≠ t) :
    noSelfLoops (addRelationship g s t ty w) := by
  unfold addRelationship
  cases h1 : textMatches g s with
  | nil => exact hs
  | cons sid ss =>
    cases h2 : textMatches g t with
    | nil => exact hs
    | cons tid ts =>
      obtain ⟨nd1, hnd1, hnd1t⟩ :=
        mem_of_textMatches g s sid (h1 ▸ List.mem_cons_self sid ss)
      obtain ⟨nd2, hnd2, hnd2t⟩ :=
        mem_of_textMatches g t tid (h2 ▸ List.mem_cons_self tid ts)
      have hne2 : sid ≠ tid := by
        intro he
        subst he
        exact hne (hnd1t ▸ hnd2t ▸ congrArg NodeData.text (assoc_inj hk hnd1 hnd2))
      cases h3 : findEdgeData g sid tid with
      | some ed =>
        simp only [h3]
        intro e he
        obtain ⟨e0, he0, rfl⟩ := List.mem_map.mp he
        by_cases hc : e0.1 = sid ∧ e0.2.1 = tid
        · simpa [hc] using hs e0 he0
        · simpa [hc] using hs e0 he0
      | none =>
        simp only [h3]
        intro e he
        rcases List.mem_append.mp he with h | h
        · exact hs e h
        · simp only [List.mem_singleton] at h
          subst h
          exact hne2

/-- The window loop keeps the node set and creates no self-loops. -/
theorem addWindow_pres (targets : List String) (g : Graph) (s : String)
    (hk : keysNodup g) (hs : noSelfLoops g) :
    (addWindow g s targets).nodes = g.nodes ∧ noSelfLoops (addWindow g s targets) := by
  induction targets generalizing g with
  | nil => exact ⟨rfl, hs⟩
  | cons t ts ih =>
    have hstep : addWindow g s (t :: ts)
        = addWindow (if s ≠ t then addRelationship g s t "CO_OCCURS" (1/2) else g) s ts := rfl
    set g1 := if s ≠ t then addRelationship g s t "CO_OCCURS" (1/2) else g with hg1
    have hn1 : g1.nodes = g.nodes := by
      rw [hg1]; split <;> simp [addRelationship_nodes]
    have hs1 : noSelfLoops g1 := by
      rw [hg1]; split
      · exact addRelationship_noSelfLoops g s t "CO_OCCURS" (1/2) hk hs (by assumption)
      · exact hs
    have hk1 : keysNodup g1 := by unfold keysNodup; rw [hn1]; exact hk
    have := ih g1 hk1 hs1
    rw [hstep]
    exact ⟨this.1.trans hn1, this.2⟩

/-- The co-occurrence outer loop keeps the node set and creates no
self-loops. -/
theorem linkTexts_pres (ts : List String) (g : Graph)
    (hk : keysNodup g) (hs : noSelfLoops g) :
    (linkTexts g ts).nodes = g.nodes ∧ noSelfLoops (linkTexts g ts) := by
  induction ts generalizing g with
  | nil => exact ⟨rfl, hs⟩
  | cons s rest ih =>
    have hw := addWindow_pres (rest.take 4) g s hk hs
    have hk2 : keysNodup (addWindow g s (rest.take 4)) := by
      unfold keysNodup; rw [hw.1]; exact hk
    have hr := ih (addWindow g s (rest.take 4)) hk2 hw.2
    rw [linkTexts]
    exact ⟨hr.1.trans hw.1, hr.2⟩

/-- `add_entity` never touches the edge set. -/
theorem addEntity_edges (g : Graph) (e : Entity) (d : Option String) (g2 : Graph)
    (h : addEntity g e d = Except.ok g2) : g2.edges = g.edges := by
  unfold addEntity at h
  cases ht : e.text with
  | none => rw [ht] at h; simp at h
  | some t0 =>
    cases hl : e.label with
    | none => rw [ht, hl] at h; simp at h
    | some lb0 =>
      rw [ht, hl] at h
      dsimp only at h
      cases hlk : g.nodes.lookup (nodeKey t0 lb0) <;> rw [hlk] at h <;>
        simp only [Except.ok.injEq] at h <;> rw [← h]

/-- Claim C7, amended: a self-loop-free graph with distinct node keys
stays self-loop free under `add_entity`, under `add_relationship`
whenever the two texts differ (the guard co-occurrence linking always
applies), and under the whole co-occurrence linking pass; only a
direct `add_relationship` call with equal source and target text can
create a self-loop. -/
theorem c7_no_selfloops_amended (g : Graph) (hk : keysNodup g) (hs : noSelfLoops g) :
    (∀ e d g2, addEntity g e d = Except.ok g2 → noSelfLoops g2)
      ∧ (∀ s t ty w, s ≠ t → noSelfLoops (addRelationship g s t ty w))
      ∧ (∀ ents m g2, addCooccurrenceEdges g ents m = Except.ok g2 → noSelfLoops g2) := by
  refine ⟨?_, ?_, ?_⟩
  · intro e d g2 h
    intro ed hed
    exact hs ed ((addEntity_edges g e d g2 h) ▸ hed)
  · intro s t ty w hne
    exact addRelationship_noSelfLoops g s t ty w hk hs hne
  · intro ents m g2 h
    cases hct : cooccurTexts ents m with
    | error msg => simp [addCooccurrenceEdges, hct, Except.map] at h
    | ok ts =>
      simp only [addCooccurrenceEdges, hct, Except.map, Except.ok.injEq] at h
      rw [← h]
      exact (linkTexts_pres ts g hk hs).2

/-- Witness for `c7_no_selfloops_amended`: `gAmb` has distinct keys
and no self-loops, and relating the distinct texts `X` and `Y` keeps
it self-loop free. -/
theorem c7_no_selfloops_witness : noSelfLoops (addRelationship gAmb "X" "Y" "RELATED_TO" 1) :=
  (c7_no_selfloops_amended gAmb (by unfold keysNodup; decide)
    (by unfold noSelfLoops; decide)).2.1 "X" "Y" "RELATED_TO" 1 (by decide)

/-- Claim C8: `add_relationship` with an unmatched source or target
text leaves the graph unchanged and raises no error; the endpoint
used for a matched text is the first-inserted node carrying that text
(no earlier node matches); a missing resolved edge is created with
count 1, an existing one has its weight increased by `w` and its
count incremented. -/
theorem c8_add_relationship (g : Graph) (s t ty : String) (w : ℚ) :
    (textMatches g s = [] ∨ textMatches g t = [] → addRelationship g s t ty w = g)
      ∧ (∀ sid srest, textMatches g s = sid :: srest →
          ∃ pre post nd, g.nodes = pre ++ (sid, nd) :: post ∧ nd.text = s
            ∧ ∀ p ∈ pre, p.2.text ≠ s)
      ∧ (∀ sid srest tid trest,
          textMatches g s = sid :: srest → textMatches g t = tid :: trest →
          (findEdgeData g sid tid = none →
            addRelationship g s t ty w
              = { g with edges := g.edges ++ [(sid, tid, { type := ty, weight := w, count := 1 })] })
          ∧ (∀ ed, findEdgeData g sid tid = some ed →
              addRelationship g s t ty w
                = { g with edges := g.edges.map (fun e =>
                    if e.1 = sid ∧ e.2.1 = tid then
                      (e.1, e.2.1, { type := e.2.2.type, weight := e.2.2.weight + w,
                                     count := e.2.2.count + 1 })
                    else e) })) := by
  refine ⟨?_, ?_, ?_⟩
  · intro h
    rcases h with h | h
    · simp [addRelationship, h]
    · cases h1 : textMatches g s <;> simp [addRelationship, h1, h]
  · intro sid srest h
    unfold textMatches at h
    cases hf : (g.nodes.filter (fun p => decide (p.2.text = s))) with
    | nil => rw [hf] at h; simp at h
    | cons q qs =>
      rw [hf] at h
      obtain ⟨hq, _⟩ := List.cons_eq_cons.mp h
      obtain ⟨pre, post, hsplit, hpa, hpre⟩ := filter_head_split _ _ _ _ hf
      refine ⟨pre, post, q.2, ?_, by simpa using hpa, ?_⟩
      · rw [hsplit, ← hq]
      · intro p hp
        simpa using hpre p hp
  · intro sid srest tid trest h1 h2
    constructor
    · intro hnone
      simp [addRelationship, h1, h2, hnone]
    · intro ed hsome
      simp [addRelationship, h1, h2, hsome]

/-- Witness for `c8_add_relationship` on `gAmb`: an unmatched text is
a silent no-op; `X` resolves to the first-inserted `X_L` (with no
earlier `X` node); the existing `X_L → Y_M` edge accumulates weight
and count; the missing `Y_M → X_L` edge is created with count 1. -/
theorem c8_add_relationship_witness :
    addRelationship gAmb "Z" "Y" "RELATED_TO" 1 = gAmb
      ∧ (∃ pre post nd, gAmb.nodes = pre ++ ("X_L", nd) :: post ∧ nd.text = "X"
          ∧ ∀ p ∈ pre, p.2.text ≠ "X")
      ∧ addRelationship gAmb "X" "Y" "RELATED_TO" 1
          = { gAmb with edges := gAmb.edges.map (fun e =>
              if e.1 = "X_L" ∧ e.2.1 = "Y_M" then
                (e.1, e.2.1, { type := e.2.2.type, weight := e.2.2.weight + 1,
                               count := e.2.2.count + 1 })
              else e) }
      ∧ addRelationship gAmb "Y" "X" "RELATED_TO" 1
          = { gAmb with edges := gAmb.edges
              ++ [("Y_M", "X_L", { type := "RELATED_TO", weight := 1, count := 1 })] } := by
  refine ⟨(c8_add_relationship gAmb "Z" "Y" "RELATED_TO" 1).1 (Or.inl rfl),
          (c8_add_relationship gAmb "X" "Y" "RELATED_TO" 1).2.1 "X_L" ["X_M"] rfl,
          ((c8_add_relationship gAmb "X" "Y" "RELATED_TO" 1).2.2 "X_L" ["X_M"] "Y_M" [] rfl rfl).2
            { type := "RELATED_TO", weight := 1, count := 1 } rfl,
          ((c8_add_relationship gAmb "Y" "X" "RELATED_TO" 1).2.2 "Y_M" [] "X_L" ["X_M"] rfl rfl).1 rfl⟩

/-- Inserting into the ranking splits the list around the new
element: everything before it ranks strictly higher. -/
theorem insertRanked_split (a : String × ℚ) (l : List (String × ℚ)) :
    ∃ pre post, insertRanked a l = pre ++ a :: post ∧ l = pre ++ post
      ∧ ∀ b ∈ pre, a.2 < b.2 := by
  induction l with
  | nil => exact ⟨[], [], rfl, rfl, by simp⟩
  | cons b bs ih =>
    by_cases hb : b.2 ≤ a.2
    · exact ⟨[], b :: bs, by simp [insertRanked, hb], rfl, by simp⟩
    · obtain ⟨pre, post, h1, h2, h3⟩ := ih
      refine ⟨b :: pre, post, ?_, by rw [List.cons_append, ← h2], ?_⟩
      · simp [insertRanked, hb, h1]
      · intro c hc
        rcases List.mem_cons.mp hc with rfl | hc
        · exact lt_of_not_le hb
        · exact h3 c hc

/-- The sorted ranking only holds elements of its input. -/
theorem mem_sortByCentrality (x : String × ℚ) (l : List (String × ℚ))
    (h : x ∈ sortByCentrality l) : x ∈ l := by
  induction l with
  | nil => simp [sortByCentrality] at h
  | cons a as ih =>
    have hstep : sortByCentrality (a :: as) = insertRanked a (sortByCentrality as) := rfl
    rw [hstep] at h
    obtain ⟨pre, post, h1, h2, _⟩ := insertRanked_split a (sortByCentrality as)
    rw [h1] at h
    rcases List.mem_append.mp h with h | h
    · exact List.mem_cons_of_mem a (ih (h2 ▸ List.mem_append_left post h))
    · rcases List.mem_cons.mp h with rfl | h
      · exact List.mem_cons_self x as
      · exact List.mem_cons_of_mem a (ih (h2 ▸ List.mem_append_right pre h))

/-- Claim C1: for every graph with distinct node keys and every
budget `m`, the build-time pruning step leaves the graph unchanged
when `N ≤ m`, and otherwise leaves at most `m` nodes with every
surviving edge having both endpoints among the surviving nodes. -/
theorem c1_budget_invariant (g : Graph) (m : ℕ) (hk : keysNodup g) :
    (g.nodes.length ≤ m → maybePrune g m = g)
      ∧ (m < g.nodes.length →
          (maybePrune g m).nodes.length ≤ m
            ∧ ∀ e ∈ (maybePrune g m).edges,
                e.1 ∈ (maybePrune g m).nodes.map Prod.fst
                  ∧ e.2.1 ∈ (maybePrune g m).nodes.map Prod.fst) := by
  constructor
  · intro h
    simp [maybePrune, Nat.not_lt.mpr h]
  · intro h
    have hmp : maybePrune g m = pruneGraph g m := by simp [maybePrune, h]
    rw [hmp]
    set keep := ((rankedNodes g).take m).map Prod.fst with hkeep
    have hnodes : (pruneGraph g m).nodes = g.nodes.filter (fun p => decide (p.1 ∈ keep)) := rfl
    have hedges : (pruneGraph g m).edges
        = g.edges.filter (fun e => decide (e.1 ∈ keep ∧ e.2.1 ∈ keep)) := rfl
    have hkeeplen : keep.length ≤ m := by
      rw [hkeep, List.length_map, List.length_take]
      exact min_le_left m _
    have hmemkeep : ∀ x ∈ keep, x ∈ (pruneGraph g m).nodes.map Prod.fst := by
      intro x hx
      obtain ⟨pr, hpr, rfl⟩ := List.mem_map.mp (hkeep ▸ hx)
      have hpr2 : pr ∈ rankedNodes g := List.mem_of_mem_take hpr
      have hpr3 : pr ∈ centralityList g := mem_sortByCentrality pr _ hpr2
      obtain ⟨p, hp, hpe⟩ := List.mem_map.mp hpr3
      have hfst : p.1 = pr.1 := by rw [← hpe]
      refine List.mem_map.mpr ⟨p, ?_, hfst⟩
      rw [hnodes]
      refine List.mem_filter.mpr ⟨hp, ?_⟩
      simp only [decide_eq_true_eq]
      rw [hfst]
      exact hx
    constructor
    · have hsub : ((pruneGraph g m).nodes.map Prod.fst) ⊆ keep := by
        intro x hx
        obtain ⟨p, hp, rfl⟩ := List.mem_map.mp hx
        rw [hnodes] at hp
        have := (List.mem_filter.mp hp).2
        simpa using this
      have hnd : ((pruneGraph g m).nodes.map Prod.fst).Nodup := by
        rw [hnodes]
        exact hk.sublist (List.Sublist.map Prod.fst (List.filter_sublist g.nodes))
      calc (pruneGraph g m).nodes.length
          = ((pruneGraph g m).nodes.map Prod.fst).length := (List.length_map _ _).symm
        _ ≤ keep.length := (List.subperm_of_subset hnd hsub).length_le
        _ ≤ m := hkeeplen
    · intro e he
      rw [hedges] at he
      have hcond := (List.mem_filter.mp he).2
      simp only [decide_eq_true_eq] at hcond
      exact ⟨hmemkeep e.1 hcond.1, hmemkeep e.2.1 hcond.2⟩

/-- Witness for `c1_budget_invariant`: a one-node graph under budget
5 is untouched; a three-node graph pruned to budget 2 ends with at
most 2 nodes and edges inside the survivors. -/
theorem c1_budget_invariant_witness :
    maybePrune gX 5 = gX
      ∧ (maybePrune gPr 2).nodes.length ≤ 2
      ∧ ∀ e ∈ (maybePrune gPr 2).edges,
          e.1 ∈ (maybePrune gPr 2).nodes.map Prod.fst
            ∧ e.2.1 ∈ (maybePrune gPr 2).nodes.map Prod.fst :=
  ⟨(c1_budget_invariant gX 5 (by unfold keysNodup; decide)).1 (by decide),
   ((c1_budget_invariant gPr 2 (by unfold keysNodup; decide)).2 (by decide)).1,
   ((c1_budget_invariant gPr 2 (by unfold keysNodup; decide)).2 (by decide)).2⟩

/-- Filtering the ranking to one centrality value commutes with one
insertion: the inserted element lands in front exactly when it has
that centrality, because everything it skips ranks strictly higher. -/
theorem filter_insertRanked (a : String × ℚ) (l : List (String × ℚ)) (k : ℚ) :
    (insertRanked a l).filter (fun b => decide (b.2 = k))
      = if a.2 = k then a :: l.filter (fun b => decide (b.2 = k))
        else l.filter (fun b => decide (b.2 = k)) := by
  obtain ⟨pre, post, h1, h2, h3⟩ := insertRanked_split a l
  rw [h1, h2]
  by_cases hak : a.2 = k
  · rw [if_pos hak]
    have hpre : pre.filter (fun b => decide (b.2 = k)) = [] := by
      rw [List.filter_eq_nil_iff]
      intro b hb
      simp only [decide_eq_true_eq]
      exact fun hbk => absurd (hak.trans hbk.symm) (ne_of_lt (h3 b hb))
    simp [List.filter_append, hpre, hak]
  · rw [if_neg hak]
    simp [List.filter_append, hak]

/-- Stability of the ranking sort: restricted to any one centrality
value, the sorted list equals the input list. -/
theorem filter_sortByCentrality (l : List (String × ℚ)) (k : ℚ) :
    (sortByCentrality l).filter (fun b => decide (b.2 = k))
      = l.filter (fun b => decide (b.2 = k)) := by
  induction l with
  | nil => rfl
  | cons a as ih =>
    have hstep : sortByCentrality (a :: as) = insertRanked a (sortByCentrality as) := rfl
    rw [hstep, filter_insertRanked, ih]
    by_cases hak : a.2 = k <;> simp [hak, List.filter_cons]

/-- One ranking insertion keeps the list sorted by descending
centrality. -/
theorem insertRanked_pairwise (a : String × ℚ) (l : List (String × ℚ))
    (h : l.Pairwise (fun u v => v.2 ≤ u.2)) :
    (insertRanked a l).Pairwise (fun u v => v.2 ≤ u.2) := by
  induction l with
  | nil => simp [insertRanked]
  | cons b bs ih =>
    rcases List.pairwise_cons.mp h with ⟨hb, hbs⟩
    by_cases hba : b.2 ≤ a.2
    · rw [insertRanked, if_pos hba]
      refine List.pairwise_cons.mpr ⟨?_, h⟩
      intro x hx
      rcases List.mem_cons.mp hx with rfl | hx
      · exact hba
      · exact le_trans (hb x hx) hba
    · rw [insertRanked, if_neg hba]
      refine List.pairwise_cons.mpr ⟨?_, ih hbs⟩
      intro x hx
      obtain ⟨pre, post, h1, h2, _⟩ := insertRanked_split a bs
      rw [h1] at hx
      rcases List.mem_append.mp hx with hx | hx
      · exact hb x (h2 ▸ List.mem_append_left post hx)
      · rcases List.mem_cons.mp hx with rfl | hx
        · exact le_of_lt (lt_of_not_le hba)
        · exact hb x (h2 ▸ List.mem_append_right pre hx)

/-- The ranking is sorted by descending centrality. -/
theorem sortByCentrality_sorted (l : List (String × ℚ)) :
    (sortByCentrality l).Pairwise (fun u v => v.2 ≤ u.2) := by
  induction l with
  | nil => simp [sortByCentrality]
  | cons a as ih => exact insertRanked_pairwise a (sortByCentrality as) ih

/-- Claim C6: the shared ranking is ordered by degree centrality
descending, and two entries with equal centrality keep their
insertion order (the earlier-inserted node precedes the later one);
the Pruner's retained node set and the top-K entity list are both
prefixes of this one deterministic ranking. -/
theorem c6_deterministic_tiebreak (g : Graph) (x y : String) (c : ℚ)
    (h : [(x, c), (y, c)].Sublist (centralityList g)) :
    [(x, c), (y, c)].Sublist (rankedNodes g)
      ∧ (rankedNodes g).Pairwise (fun u v => v.2 ≤ u.2)
      ∧ ∀ n, topEntities g n = ((rankedNodes g).take n).map (fun p => (nodeTextOf g p.1, p.2))
        ∧ (pruneGraph g n).nodes
            = g.nodes.filter (fun p =>
                decide (p.1 ∈ ((rankedNodes g).take n).map Prod.fst)) := by
  refine ⟨?_, sortByCentrality_sorted (centralityList g), ?_⟩
  · have h2 := h.filter (fun b => decide (b.2 = c))
    have h3 : ([(x, c), (y, c)].filter (fun b => decide (b.2 = c))) = [(x, c), (y, c)] := by
      simp
    rw [h3, ← filter_sortByCentrality] at h2
    exact h2.trans (List.filter_sublist _)
  · intro n
    exact ⟨rfl, rfl⟩

/-- Witness for `c6_deterministic_tiebreak`: in `gTie` both nodes
have centrality 0, and the ranking keeps `A_L` (inserted first)
before `B_L`. -/
theorem c6_deterministic_tiebreak_witness :
    [("A_L", (0:ℚ)), ("B_L", (0:ℚ))].Sublist (rankedNodes gTie) := by
  have h : [("A_L", (0:ℚ)), ("B_L", (0:ℚ))].Sublist (centralityList gTie) := by
    have heq : centralityList gTie = [("A_L", (0:ℚ)), ("B_L", (0:ℚ))] := by
      simp [centralityList, gTie, degreeCentrality, nodeDegree]
    rw [heq]
  exact (c6_deterministic_tiebreak gTie "A_L" "B_L" 0 h).1

/-- One repeat `add_entity` call on the single-node graph: count goes
from `n` to `n + 1` and the confidence follows the running-mean
update `(q·n + c) / (n + 1)`. -/
theorem addEntity_single_step (t lb : String) (n : ℕ) (q c : ℚ) :
    addEntity (singleNodeGraph t lb n q)
        { text := some t, label := some lb, confidence := some c } none
      = Except.ok (singleNodeGraph t lb (n + 1) ((q * n + c) / (n + 1))) := by
  simp [addEntity, singleNodeGraph, List.lookup, effectiveConfidence]

/-- Folding the running-mean update over a confidence list: starting
from count `n ≥ 1` and mean `q`, the result is the exact weighted
mean `(q·n + sum) / (n + length)`. -/
theorem addSeq_single_run (cs : List ℚ) (t lb : String) (n : ℕ) (q : ℚ) (hn : 1 ≤ n) :
    addSeq (singleNodeGraph t lb n q) none
        (cs.map (fun c => { text := some t, label := some lb, confidence := some c }))
      = Except.ok (singleNodeGraph t lb (n + cs.length)
          ((q * n + cs.sum) / ((n : ℚ) + cs.length))) := by
  induction cs generalizing n q with
  | nil =>
    have hn0 : (n : ℚ) ≠ 0 := Nat.cast_ne_zero.mpr (by omega)
    simp [addSeq]
    rw [mul_div_cancel_right₀ q hn0]
  | cons c rest ih =>
    rw [List.map_cons]
    have hstep := addEntity_single_step t lb n q c
    simp only [addSeq, hstep]
    rw [ih (n + 1) ((q * n + c) / (n + 1)) (by omega)]
    have hn1 : ((n : ℚ) + 1) ≠ 0 := by positivity
    simp only [singleNodeGraph, List.length_cons, List.sum_cons, Except.ok.injEq,
      Graph.mk.injEq, List.cons.injEq, Prod.mk.injEq, NodeData.mk.injEq, and_true, true_and]
    constructor
    · push_cast
      rw [div_mul_cancel₀ _ hn1]
      ring
    · omega

/-- Claim C2: after a sequence of `add_entity` calls for one key with
confidences `cs`, the stored node has count `cs.length` and
confidence equal to the exact arithmetic mean `cs.sum / cs.length`;
the result is the same for every permutation `cs2` of `cs`
(order-independence of the running mean, in exact arithmetic). -/
theorem c2_running_mean (t lb : String) (cs cs2 : List ℚ) (hp : cs.Perm cs2) (hne : cs ≠ []) :
    addConfs t lb cs
      = Except.ok (singleNodeGraph t lb cs2.length (cs2.sum / (cs2.length : ℚ))) := by
  have hlen : cs2.length = cs.length := hp.length_eq.symm
  have hsum : cs2.sum = cs.sum := hp.symm.sum_eq
  rw [hlen, hsum]
  cases cs with
  | nil => exact absurd rfl hne
  | cons c rest =>
    unfold addConfs
    rw [List.map_cons]
    have hfirst : addEntity emptyGraph
        { text := some t, label := some lb, confidence := some c } none
        = Except.ok (singleNodeGraph t lb 1 c) := by
      simp [addEntity, emptyGraph, singleNodeGraph, List.lookup, effectiveConfidence]
    simp only [addSeq, hfirst]
    rw [addSeq_single_run rest t lb 1 c (le_refl 1)]
    simp only [singleNodeGraph, List.length_cons, List.sum_cons, Except.ok.injEq,
      Graph.mk.injEq, List.cons.injEq, Prod.mk.injEq, NodeData.mk.injEq, and_true, true_and]
    constructor
    · push_cast
      ring_nf
    · omega

/-- Witness for `c2_running_mean`: confidences `0.8` and `0.6` in
either order give confidence `0.7` and count 2. -/
theorem c2_running_mean_witness :
    addConfs "a" "L" [4/5, 3/5] = Except.ok (singleNodeGraph "a" "L" 2 (7/10))
      ∧ addConfs "a" "L" [3/5, 4/5] = Except.ok (singleNodeGraph "a" "L" 2 (7/10)) := by
  have h1 := c2_running_mean "a" "L" [4/5, 3/5] [4/5, 3/5] (List.Perm.refl _) (by simp)
  have h2 := c2_running_mean "a" "L" [3/5, 4/5] [4/5, 3/5] (List.Perm.swap (4/5) (3/5) []) (by simp)
  have hv : List.sum [(4:ℚ)/5, 3/5] / ((List.length [(4:ℚ)/5, 3/5] : ℕ) : ℚ) = 7/10 := by
    norm_num
  rw [hv] at h1 h2
  exact ⟨h1, h2⟩

end GraphRag
